import Mathlib

/-!
Shallow embedding of the request-pipeline core of the telegram-mcp
gateway: circuit breaker, global and per-chat rate limiters, response
cache, and the `callTelegramAPI` driver with its retry loop.
Timestamps are modelled as `Int` (JS `Date.now()` millisecond values);
mutation is modelled by explicit state passing, with the current time
supplied as a parameter at each observation point.
-/

namespace TelegramMCP

/-- Breaker phase, mirroring `"closed" | "open" | "half-open"`. -/
inductive Phase
  | closed
  | opened
  | halfOpen
  deriving DecidableEq, Repr

/-- State of `CircuitBreaker`: `consecutiveFailures`, `openedAt`, `state`. -/
structure Breaker where
  consecutiveFailures : Nat
  openedAt : Int
  phase : Phase
  deriving DecidableEq, Repr

/-- Fresh breaker: `consecutiveFailures = 0`, `openedAt = 0`, closed. -/
def Breaker.init : Breaker := ⟨0, 0, Phase.closed⟩

/-- Source `CircuitBreaker.threshold` (open after 5 consecutive failures). -/
def breakerThreshold : Nat := 5

/-- Source `CircuitBreaker.resetMs` (try again after 30 seconds). -/
def breakerResetMs : Int := 30000

/-- Source `CircuitBreaker.isOpen()`: returns whether requests are blocked and the
breaker after the lazy open-to-half-open transition. -/
def Breaker.isOpen (now : Int) (b : Breaker) : Bool × Breaker :=
  match b.phase with
  | Phase.opened =>
      if breakerResetMs ≤ now - b.openedAt then
        (false, { b with phase := Phase.halfOpen })
      else
        (true, b)
  | _ => (false, b)

/-- Source `CircuitBreaker.recordSuccess()`: reset failures, close the breaker. -/
def Breaker.recordSuccess (b : Breaker) : Breaker :=
  { b with consecutiveFailures := 0, phase := Phase.closed }

/-- Source `CircuitBreaker.recordFailure(errorCode?)`: a defined `errorCode < 500`
is ignored; otherwise the failure counter increments and on reaching the
threshold the breaker opens, stamping `openedAt` with the current time. -/
def Breaker.recordFailure (now : Int) (errorCode : Option Int) (b : Breaker) :
    Breaker :=
  match errorCode with
  | some c =>
      if c < 500 then b
      else
        let f := b.consecutiveFailures + 1
        if breakerThreshold ≤ f then
          { consecutiveFailures := f, openedAt := now, phase := Phase.opened }
        else
          { b with consecutiveFailures := f }
  | none =>
      let f := b.consecutiveFailures + 1
      if breakerThreshold ≤ f then
        { consecutiveFailures := f, openedAt := now, phase := Phase.opened }
      else
        { b with consecutiveFailures := f }

/-- A failure code qualifies for the breaker when the reply carried no
code (network/transport) or a code at least 500. -/
def qualifies (errorCode : Option Int) : Bool :=
  match errorCode with
  | some c => decide (500 ≤ c)
  | none => true

/-- Run a sequence of `recordFailure` calls, each tagged with its time. -/
def runFailures (l : List (Option Int × Int)) (b : Breaker) : Breaker :=
  l.foldl (fun b p => Breaker.recordFailure p.2 p.1 b) b

/-- Number of qualifying failures in a call sequence. -/
def countQualifying (l : List (Option Int × Int)) : Nat :=
  (l.filter (fun p => qualifies p.1)).length

/-- State of the global `RateLimiter`: recorded request instants and the
configured `limitPerMinute`. -/
structure RateLimiterSt where
  requests : List Int
  limitPerMinute : Nat
  deriving DecidableEq, Repr

/-- Source `RateLimiter.cleanup()`: drop instants not strictly newer than one
minute ago (the filter keeps `time > now - 60000`). -/
def rlCleanup (now : Int) (reqs : List Int) : List Int :=
  reqs.filter (fun t => now - 60000 < t)

/-- Source `RateLimiter.canMakeRequest()`: cleanup, then compare the window
count against the per-minute budget. -/
def canMakeRequest (now : Int) (st : RateLimiterSt) : Bool × RateLimiterSt :=
  let r := rlCleanup now st.requests
  (decide (r.length < st.limitPerMinute), { st with requests := r })

/-- Source `RateLimiter.recordRequest()`: push the current instant. -/
def recordRequest (now : Int) (st : RateLimiterSt) : RateLimiterSt :=
  { st with requests := st.requests ++ [now] }

/-- Source `RateLimiter.getWaitTime()`: cleanup; `0` when under budget, else
`max 0 (60000 - (now - oldest))` where `oldest` is the first remaining
recorded instant. -/
def getWaitTime (now : Int) (st : RateLimiterSt) : Int × RateLimiterSt :=
  let r := rlCleanup now st.requests
  if r.length < st.limitPerMinute then
    (0, { st with requests := r })
  else
    match r.head? with
    | some oldest => (max 0 (60000 - (now - oldest)), { st with requests := r })
    | none => (0, { st with requests := r })

/-- The admission check of the driver: `canMakeRequest`, and on refusal
`getWaitTime`, both observing the same instant. -/
def rlAdmission (now : Int) (st : RateLimiterSt) : (Bool × Int) × RateLimiterSt :=
  let p := canMakeRequest now st
  if p.1 then
    ((true, 0), p.2)
  else
    let q := getWaitTime now p.2
    ((false, q.1), q.2)

/-- A chat identifier as supplied in `params.chat_id`: a number or a string. -/
inductive ChatId
  | num (i : Int)
  | str (s : String)
  deriving DecidableEq, Repr

/-- Leading decimal digits of a character list as a number; `none` when
there is no leading digit (JS `parseInt` yields `NaN`). -/
def leadingNat (cs : List Char) : Option Nat :=
  let ds := cs.takeWhile (fun c => c.isDigit)
  if ds.isEmpty then none
  else some (ds.foldl (fun a c => 10 * a + (c.toNat - 48)) 0)

/-- JS `parseInt(s, 10)`: skip whitespace, optional sign, then the
longest digit run; `none` models `NaN`. -/
def parseIntJS (s : String) : Option Int :=
  match s.trim.toList with
  | '-' :: rest => (leadingNat rest).map (fun n => -(n : Int))
  | '+' :: rest => (leadingNat rest).map (fun n => (n : Int))
  | cs => (leadingNat cs).map (fun n => (n : Int))

/-- Source `String(chatId)`: the map key used by the per-chat limiter. -/
def chatKey : ChatId → String
  | ChatId.num i => toString i
  | ChatId.str s => s

/-- State of `PerChatRateLimiter`: timestamps per chat key (a missing
entry and `[]` are observationally identical) and `lastCleanup`. -/
structure PerChatSt where
  chatTimestamps : String → List Int
  lastCleanup : Int

/-- Source `PerChatRateLimiter.privateMessageIntervalMs`. -/
def privateIntervalMs : Int := 1000

/-- Source `PerChatRateLimiter.groupMessagesPerMinute`. -/
def groupPerMinute : Nat := 20

/-- Source `PerChatRateLimiter.isGroupChat`: strings are parsed with
`parseInt`; unparsable ids and negative ids count as groups. -/
def isGroupChat : ChatId → Bool
  | ChatId.num i => decide (i < 0)
  | ChatId.str s =>
      match parseIntJS s with
      | some i => decide (i < 0)
      | none => true

/-- Source `PerChatRateLimiter.maybeCleanup()`: at most once per minute, keep
only instants strictly within the trailing minute (an entry whose
history is fully outside becomes empty, i.e. deleted). -/
def maybeCleanup (now : Int) (st : PerChatSt) : PerChatSt :=
  if now - st.lastCleanup < 60000 then st
  else
    { lastCleanup := now
      chatTimestamps := fun id => (st.chatTimestamps id).filter (fun t => now - 60000 < t) }

/-- Source `PerChatRateLimiter.canSendToChat(chatId)`: groups allow under 20
instants in the trailing minute; private chats allow when there is no
last instant (JS falsiness also treats instant `0` as absent) or the
last instant is at least one second old. -/
def canSendToChat (now : Int) (chatId : ChatId) (st : PerChatSt) :
    Bool × PerChatSt :=
  let st1 := maybeCleanup now st
  let timestamps := st1.chatTimestamps (chatKey chatId)
  if isGroupChat chatId then
    ((timestamps.filter (fun t => now - 60000 < t)).length < groupPerMinute, st1)
  else
    match timestamps.getLast? with
    | none => (true, st1)
    | some last => (decide (last = 0) || decide (privateIntervalMs ≤ now - last), st1)

/-- Source `PerChatRateLimiter.recordChatMessage(chatId)`: push the instant. -/
def recordChatMessage (now : Int) (chatId : ChatId) (st : PerChatSt) : PerChatSt :=
  { st with
    chatTimestamps := fun id =>
      if id = chatKey chatId then st.chatTimestamps id ++ [now]
      else st.chatTimestamps id }

/-- Source `PerChatRateLimiter.getWaitTimeForChat(chatId)`. -/
def getWaitTimeForChat (now : Int) (chatId : ChatId) (st : PerChatSt) :
    Int × PerChatSt :=
  let st1 := maybeCleanup now st
  let timestamps := st1.chatTimestamps (chatKey chatId)
  if timestamps.isEmpty then (0, st1)
  else if isGroupChat chatId then
    let recent := timestamps.filter (fun t => now - 60000 < t)
    if recent.length < groupPerMinute then (0, st1)
    else
      match recent.head? with
      | some oldest => (max 0 (60000 - (now - oldest)), st1)
      | none => (0, st1)
  else
    match timestamps.getLast? with
    | some last =>
        if privateIntervalMs ≤ now - last then (0, st1)
        else (privateIntervalMs - (now - last), st1)
    | none => (0, st1)

/-- JSON-like values appearing in parameter objects and results. -/
inductive JVal
  | num (n : Int)
  | str (s : String)
  | obj (fields : List (String × JVal))

/-- Escape a character for a JSON string literal. -/
def escChar (c : Char) : String :=
  if c = '\x22' then "\\\x22"
  else if c = '\\' then "\\\\"
  else String.singleton c

/-- Escape a string for a JSON string literal. -/
def escString (s : String) : String :=
  s.data.foldl (fun acc c => acc ++ escChar c) ""

mutual

/-- Source `JSON.stringify` on a value, enumerating object fields in insertion
order (exactly what the host serialiser does for these shapes). -/
def stringifyJVal : JVal → String
  | JVal.num n => toString n
  | JVal.str s => "\x22" ++ escString s ++ "\x22"
  | JVal.obj fields => "\x7b" ++ stringifyFields fields ++ "\x7d"

/-- Comma-separated `"key":value` fragments, in list (insertion) order. -/
def stringifyFields : List (String × JVal) → String
  | [] => ""
  | [kv] => "\x22" ++ escString kv.1 ++ "\x22:" ++ stringifyJVal kv.2
  | kv :: rest =>
      "\x22" ++ escString kv.1 ++ "\x22:" ++ stringifyJVal kv.2 ++ "," ++
        stringifyFields rest

end

/-- A parameter object: ordered field list, as a JS object literal. -/
def Params := List (String × JVal)

/-- Source `generateKey(method, params)`: `method:JSON.stringify(params)`. -/
def generateKey (method : String) (params : Params) : String :=
  method ++ ":" ++ stringifyJVal (JVal.obj params)

/-- Source `CACHE_TTL`: per-method TTL in milliseconds; absent means the method
is not cacheable. -/
def CACHE_TTL (method : String) : Option Int :=
  if method = "getMe" then some 3600000
  else if method = "getWebhookInfo" then some 60000
  else if method = "getStickerSet" then some 300000
  else if method = "getChat" then some 120000
  else none

/-- Source `isCacheable(method)`: membership in `CACHE_TTL`. -/
def isCacheable (method : String) : Bool :=
  (CACHE_TTL method).isSome

/-- One cache entry: `{data, expiresAt}`. -/
structure CEntry where
  data : JVal
  expiresAt : Int

/-- The cache map keyed by `generateKey`; `none` is an absent key. -/
def CacheMap := String → Option CEntry

/-- The empty cache. -/
def emptyCache : CacheMap := fun _ => none

/-- Source `getCached(method, params)`: a present entry with `now > expiresAt`
is deleted and misses; otherwise it hits with its data. -/
def getCached (now : Int) (method : String) (params : Params)
    (c : CacheMap) : Option JVal × CacheMap :=
  let key := generateKey method params
  match c key with
  | none => (none, c)
  | some e =>
      if e.expiresAt < now then
        (none, fun k => if k = key then none else c k)
      else
        (some e.data, c)

/-- Source `setCache(method, params, data, ttlMs?)`: the TTL is `ttlMs` when
given, else `CACHE_TTL[method]`; a missing or zero TTL (JS falsiness)
stores nothing, else the entry expires at `now + ttl`. -/
def setCache (now : Int) (method : String) (params : Params) (data : JVal)
    (ttlMs : Option Int) (c : CacheMap) : CacheMap :=
  let key := generateKey method params
  match ttlMs <|> CACHE_TTL method with
  | none => c
  | some ttl =>
      if ttl = 0 then c
      else fun k => if k = key then some ⟨data, now + ttl⟩ else c k

/-- Source `clearCache()`: drop everything. -/
def clearCache (_ : CacheMap) : CacheMap := fun _ => none

/-- Source `clearCacheForMethod(method)`: drop every key starting with
`method ++ ":"`. -/
def clearCacheForMethod (method : String) (c : CacheMap) : CacheMap :=
  fun k => if (method ++ ":").data.isPrefixOf k.data then none else c k

/-- Cache operations, for stating trace properties. -/
inductive CacheOp
  | store (method : String) (params : Params) (v : JVal) (ttl : Option Int) (t : Int)
  | look (method : String) (params : Params) (t : Int)
  | evict (method : String)
  | clearAll

/-- Effect of one cache operation on the cache map. -/
def applyOp (c : CacheMap) : CacheOp → CacheMap
  | CacheOp.store m p v ttl t => setCache t m p v ttl c
  | CacheOp.look m p t => (getCached t m p c).2
  | CacheOp.evict m => clearCacheForMethod m c
  | CacheOp.clearAll => clearCache c

/-- Run a sequence of cache operations. -/
def runOps (l : List CacheOp) (c : CacheMap) : CacheMap :=
  l.foldl applyOp c

/-- A `TelegramResponse` envelope; `parameters.retry_after` is flattened
into the `retry_after` field. -/
structure Resp where
  ok : Bool
  result : Option JVal := none
  description : Option String := none
  errorCode : Option Int := none
  retryAfter : Option Int := none

/-- JS `description?.includes(sub)`: the split on `sub` has more than
one piece exactly when `sub` occurs. -/
def descIncludes (d : Option String) (sub : String) : Bool :=
  match d with
  | none => false
  | some s => 1 < (s.splitOn sub).length

/-- Source `isRetryableError(response)`: 429 always retries; a truthy code at
least 500 retries; a falsy code with a "Network error" description
retries; everything else does not. -/
def isRetryableError (r : Resp) : Bool :=
  if r.ok then false
  else if r.errorCode = some 429 then true
  else
    match r.errorCode with
    | some c =>
        if c = 0 then descIncludes r.description "Network error"
        else decide (500 ≤ c)
    | none => descIncludes r.description "Network error"

/-- Source `MESSAGE_SENDING_METHODS`: methods subject to per-chat limiting. -/
def MESSAGE_SENDING_METHODS : List String :=
  ["sendMessage", "sendPhoto", "sendAudio", "sendDocument", "sendVideo",
   "sendAnimation", "sendVoice", "sendVideoNote", "sendMediaGroup",
   "sendLocation", "sendVenue", "sendContact", "sendPoll", "sendDice",
   "sendSticker", "sendInvoice", "sendGame", "copyMessage",
   "forwardMessage"]

/-- Source `FILE_UPLOAD_METHODS`: the keys of `FILE_UPLOAD_PARAMS`. -/
def FILE_UPLOAD_METHODS : List String :=
  ["sendPhoto", "sendAudio", "sendDocument", "sendVideo", "sendAnimation",
   "sendVoice", "sendVideoNote", "sendSticker", "setWebhook",
   "setChatPhoto", "uploadStickerFile", "createNewStickerSet",
   "addStickerToSet", "replaceStickerInSet", "setStickerSetThumbnail",
   "setBusinessAccountProfilePhoto"]

/-- Coerce a `chat_id` parameter value to the limiter's view of it
(`String(x)` of a plain object is `"[object Object]"`). -/
def jvalToChatId : JVal → ChatId
  | JVal.num i => ChatId.num i
  | JVal.str s => ChatId.str s
  | JVal.obj _ => ChatId.str "[object Object]"

/-- The `chat_id` field of a parameter object, when present. -/
def chatIdOf (params : Params) : Option ChatId :=
  (List.lookup "chat_id" params).map jvalToChatId

/-- Result of one transport attempt: a parsed JSON reply, or a thrown
fetch error (timeout or network), carrying the host error message. -/
inductive Outcome
  | reply (r : Resp)
  | transportErr (isTimeout : Bool) (msg : String)

/-- Externally determined result of the upload inspection
(`checkForFileUploads` / `validateFiles` read the filesystem). -/
inductive FileCheck
  | noFiles
  | filesValid
  | filesInvalid (msg : String)
  deriving DecidableEq, Repr

/-- The mutable singletons touched by one invocation. -/
structure ApiWorld where
  cache : CacheMap
  breaker : Breaker
  global : RateLimiterSt
  perChat : PerChatSt

/-- Source `Math.ceil(w / 1000)` for the non-negative wait times produced by
the limiters. -/
def ceilSecs (w : Int) : Int := (w + 999) / 1000

/-- The retry loop of `callTelegramAPI` from a given attempt index with
`budget` retries left; returns the envelope, the final world, and the
number of transport attempts performed. `outcome i` and `times i` are
the reply and the clock of attempt `i`. -/
def apiLoop (method : String) (params : Params) (timeoutMs : Int)
    (outcome : Nat → Outcome) (times : Nat → Int) (attempt : Nat)
    (budget : Nat) (w : ApiWorld) : Resp × ApiWorld × Nat :=
  let w1 : ApiWorld := { w with global := recordRequest (times attempt) w.global }
  match outcome attempt with
  | Outcome.reply r =>
      if r.ok then
        let w2 := { w1 with breaker := w1.breaker.recordSuccess }
        let w3 :=
          if method ∈ MESSAGE_SENDING_METHODS then
            match chatIdOf params with
            | some cid =>
                { w2 with perChat := recordChatMessage (times attempt) cid w2.perChat }
            | none => w2
          else w2
        let w4 :=
          if isCacheable method then
            match r.result with
            | some v =>
                { w3 with
                  cache := setCache (times attempt) method params v
                    (CACHE_TTL method) w3.cache }
            | none => w3
          else w3
        (r, w4, 1)
      else if isRetryableError r then
        match budget with
        | Nat.succ b =>
            let res := apiLoop method params timeoutMs outcome times
              (attempt + 1) b w1
            (res.1, res.2.1, res.2.2 + 1)
        | 0 =>
            (r,
             { w1 with
               breaker := Breaker.recordFailure (times attempt) r.errorCode w1.breaker },
             1)
      else
        (r,
         { w1 with
           breaker := Breaker.recordFailure (times attempt) r.errorCode w1.breaker },
         1)
  | Outcome.transportErr isTimeout msg =>
      let r : Resp :=
        { ok := false
          description := some
            (if isTimeout then "Request timeout after " ++ toString timeoutMs ++ "ms"
             else "Network error: " ++ msg) }
      match budget with
      | Nat.succ b =>
          let res := apiLoop method params timeoutMs outcome times
            (attempt + 1) b w1
          (res.1, res.2.1, res.2.2 + 1)
      | 0 =>
          (r,
           { w1 with
             breaker := Breaker.recordFailure (times attempt) none w1.breaker },
           1)

/-- Source `callTelegramAPI(method, params, options)`: cache probe, breaker
admission, global and per-chat rate-limit checks, upload validation,
then the retry loop. Returns the envelope, the final world, and the
number of transport attempts performed. -/
def callTelegramAPI (method : String) (params : Params) (timeoutMs : Int)
    (maxRetries : Nat) (skipRateLimit : Bool) (fileCheck : FileCheck)
    (outcome : Nat → Outcome) (times : Nat → Int) (now0 : Int)
    (w : ApiWorld) : Resp × ApiWorld × Nat :=
  let probe : Option JVal × CacheMap :=
    if isCacheable method then getCached now0 method params w.cache
    else (none, w.cache)
  match probe.1 with
  | some v => ({ ok := true, result := some v }, { w with cache := probe.2 }, 0)
  | none =>
    let w := { w with cache := probe.2 }
    let bo := w.breaker.isOpen now0
    let w := { w with breaker := bo.2 }
    if bo.1 then
      ({ ok := false, errorCode := some 503,
         description := some
           "Service temporarily unavailable (circuit breaker open). Try again later." },
       w, 0)
    else
      let globalCheck := canMakeRequest now0 w.global
      let w := if skipRateLimit then w else { w with global := globalCheck.2 }
      if ¬skipRateLimit ∧ globalCheck.1 = false then
        let q := getWaitTime now0 w.global
        ({ ok := false, errorCode := some 429,
           description := some
             ("Rate limit exceeded. Wait " ++ toString (ceilSecs q.1) ++ " seconds.")
           retryAfter := some (ceilSecs q.1) },
         { w with global := q.2 }, 0)
      else
        match if skipRateLimit then none
                   else if method ∈ MESSAGE_SENDING_METHODS then chatIdOf params
                   else none with
        | some cid =>
            let cs := canSendToChat now0 cid w.perChat
            let w := { w with perChat := cs.2 }
            if cs.1 = false then
              let q := getWaitTimeForChat now0 cid w.perChat
              ({ ok := false, errorCode := some 429,
                 description := some
                   ("Per-chat rate limit exceeded for chat " ++ chatKey cid ++
                     ". Wait " ++ toString (ceilSecs q.1) ++ " seconds.")
                 retryAfter := some (ceilSecs q.1) },
               { w with perChat := q.2 }, 0)
            else
              if method ∈ FILE_UPLOAD_METHODS then
                match fileCheck with
                | FileCheck.filesInvalid msg =>
                    ({ ok := false, errorCode := some 400,
                       description := some ("File upload error: " ++ msg) }, w, 0)
                | _ => apiLoop method params timeoutMs outcome times 0 maxRetries w
              else apiLoop method params timeoutMs outcome times 0 maxRetries w
        | none =>
            if method ∈ FILE_UPLOAD_METHODS then
              match fileCheck with
              | FileCheck.filesInvalid msg =>
                  ({ ok := false, errorCode := some 400,
                     description := some ("File upload error: " ++ msg) }, w, 0)
              | _ => apiLoop method params timeoutMs outcome times 0 maxRetries w
            else apiLoop method params timeoutMs outcome times 0 maxRetries w

/-- The record returned by `getCircuitBreakerStatus`. -/
structure BreakerStatus where
  state : Phase
  consecutiveFailures : Nat
  deriving DecidableEq, Repr

/-- Source `getCircuitBreakerStatus()`: forces a state check through `isOpen`
(which may transition open to half-open) and reports the resulting
state; the mutated breaker is the second component. -/
def getCircuitBreakerStatus (now : Int) (b : Breaker) :
    BreakerStatus × Breaker :=
  let p := Breaker.isOpen now b
  (⟨p.2.phase, p.2.consecutiveFailures⟩, p.2)

/-- Source `isReady()`: ready exactly when the reported breaker state is not
open; threads the breaker mutated by the status read. -/
def isReady (now : Int) (b : Breaker) : Bool × Breaker :=
  let p := getCircuitBreakerStatus now b
  (decide (p.1.state ≠ Phase.opened), p.2)

/-- Source `getHealthStatus()`: overall status derived from the breaker status
read (which mutates the breaker) and the limiter's `isLimited`; the
mutated breaker and limiter are threaded through. -/
def getHealthStatus (now : Int) (b : Breaker) (rl : RateLimiterSt) :
    String × (Breaker × RateLimiterSt) :=
  let p := getCircuitBreakerStatus now b
  let can := canMakeRequest now rl
  let limited := !can.1
  let overall :=
    if p.1.state = Phase.opened then "unhealthy"
    else if p.1.state = Phase.halfOpen ∨ limited = true then "degraded"
    else "healthy"
  (overall, (p.2, can.2))

/-- Intervening operations compatible with an entry under `key` for
method `m` expiring at `tmax`: stores to other keys, lookups at or
before `tmax`, evictions of other (colon-free) methods; no `clear()`. -/
def okOp (key : String) (m : String) (tmax : Int) : CacheOp → Prop
  | CacheOp.store mo po _ _ _ => generateKey mo po ≠ key
  | CacheOp.look _ _ u => u ≤ tmax
  | CacheOp.evict mo => mo ≠ m ∧ ':' ∉ mo.data
  | CacheOp.clearAll => False

/-- Two logically equal parameter objects differing only in field
order. -/
def pEx : Params := [("a", JVal.num 1), ("b", JVal.num 2)]

/-- The same bindings as `pEx`, enumerated in the opposite order. -/
def qEx : Params := [("b", JVal.num 2), ("a", JVal.num 1)]

/-! ## Theorems -/

lemma recordFailure_qualifying (now : Int) (code : Option Int) (b : Breaker)
    (h : qualifies code = true) :
    Breaker.recordFailure now code b =
      (if breakerThreshold ≤ b.consecutiveFailures + 1 then
        ⟨b.consecutiveFailures + 1, now, Phase.opened⟩
      else { b with consecutiveFailures := b.consecutiveFailures + 1 }) := by
  cases code with
  | none => simp [Breaker.recordFailure]
  | some c =>
      simp only [qualifies, decide_eq_true_eq] at h
      simp [Breaker.recordFailure, not_lt.mpr h]

lemma recordFailure_nonqualifying (now : Int) (code : Option Int) (b : Breaker)
    (h : qualifies code = false) :
    Breaker.recordFailure now code b = b := by
  cases code with
  | none => simp [qualifies] at h
  | some c =>
      simp only [qualifies, decide_eq_false_iff_not, not_le] at h
      simp [Breaker.recordFailure, h]

lemma runFailures_spec (l : List (Option Int × Int)) (b : Breaker)
    (hb : b.phase = Phase.opened ↔ breakerThreshold ≤ b.consecutiveFailures) :
    (runFailures l b).consecutiveFailures
        = b.consecutiveFailures + countQualifying l ∧
    ((runFailures l b).phase = Phase.opened ↔
        breakerThreshold ≤ (runFailures l b).consecutiveFailures) := by
  induction l generalizing b with
  | nil => simpa [runFailures, countQualifying] using hb
  | cons hd tl ih =>
      have hstep : runFailures (hd :: tl) b
          = runFailures tl (Breaker.recordFailure hd.2 hd.1 b) := rfl
      by_cases hq : qualifies hd.1 = true
      · rw [hstep, recordFailure_qualifying hd.2 hd.1 b hq]
        by_cases hthr : breakerThreshold ≤ b.consecutiveFailures + 1
        · have := ih (b := ⟨b.consecutiveFailures + 1, hd.2, Phase.opened⟩)
            (by simpa using hthr)
          rw [if_pos hthr]
          refine ⟨?_, this.2⟩
          have hcount : countQualifying (hd :: tl) = 1 + countQualifying tl := by
            simp [countQualifying, List.filter, hq]
            omega
          rw [this.1, hcount]
          simp only [Breaker.mk.injEq]
          omega
        · have := ih (b := { b with consecutiveFailures := b.consecutiveFailures + 1 })
            (by
              constructor
              · intro hph
                exact absurd (hb.mp hph) (by omega)
              · intro hle
                exact absurd hle (by simpa using hthr))
          rw [if_neg hthr]
          refine ⟨?_, this.2⟩
          have hcount : countQualifying (hd :: tl) = 1 + countQualifying tl := by
            simp [countQualifying, List.filter, hq]
            omega
          rw [this.1, hcount]
          simp only [Breaker.mk.injEq]
          omega
      · have hq' : qualifies hd.1 = false := by
          simpa using hq
        rw [hstep, recordFailure_nonqualifying hd.2 hd.1 b hq']
        have := ih (b := b) hb
        have hcount : countQualifying (hd :: tl) = countQualifying tl := by
          simp [countQualifying, List.filter, hq']
        rw [hcount]
        exact this

/-- C1: over any `onFailure` sequence with no intervening success, the
phase is open exactly when at least five qualifying failures (no code,
or code at least 500) have been recorded, so the 5th consecutive
qualifying call opens the breaker; and an `onFailure(c)` with a 4xx
code (429 included) changes neither the phase nor the counter. -/
theorem c1_failure_threshold (l : List (Option Int × Int)) (c now : Int)
    (b : Breaker) (h1 : 400 ≤ c) (h2 : c < 500) :
    Breaker.recordFailure now (some c) b = b ∧
    ((runFailures l Breaker.init).phase = Phase.opened ↔
        breakerThreshold ≤ countQualifying l) := by
  constructor
  · simp [Breaker.recordFailure, h2]
  · have h := runFailures_spec l Breaker.init (by simp [Breaker.init, breakerThreshold])
    rw [h.2, h.1]
    simp [Breaker.init]

/-- Witness for C1 at a concrete sequence: four qualifying failures and
interleaved 4xx codes leave the breaker closed-compatible, the fifth
qualifying failure opens it; `onFailure(429)` is the identity. -/
theorem c1_failure_threshold_witness :
    Breaker.recordFailure 7 (some 429) ⟨3, 0, Phase.closed⟩ = ⟨3, 0, Phase.closed⟩ ∧
    ((runFailures [(none, 1), (some 502, 2), (some 404, 3), (some 500, 4),
        (some 429, 5), (none, 6), (some 503, 7)] Breaker.init).phase = Phase.opened ↔
      breakerThreshold ≤ countQualifying [(none, 1), (some 502, 2), (some 404, 3),
        (some 500, 4), (some 429, 5), (none, 6), (some 503, 7)]) :=
  c1_failure_threshold _ 429 7 ⟨3, 0, Phase.closed⟩ (by decide) (by decide)

/-- C2: while open and younger than 30 s, every admission check refuses
and leaves the breaker untouched; the first check at or past
`openedAt + 30000` flips the phase to half-open and allows the call,
and a success on that half-open breaker closes it. -/
theorem c2_open_refuses_until_reset (b : Breaker) (now : Int)
    (hopen : b.phase = Phase.opened) :
    (now - b.openedAt < breakerResetMs → Breaker.isOpen now b = (true, b)) ∧
    (breakerResetMs ≤ now - b.openedAt →
      Breaker.isOpen now b = (false, { b with phase := Phase.halfOpen }) ∧
      (Breaker.recordSuccess { b with phase := Phase.halfOpen }).phase
        = Phase.closed) := by
  rcases b with ⟨cf, oa, ph⟩
  simp only at hopen
  subst hopen
  constructor
  · intro h
    simp [Breaker.isOpen, not_le.mpr h]
  · intro h
    exact ⟨by simp [Breaker.isOpen, h], by simp [Breaker.recordSuccess]⟩

/-- Witness for C2: a breaker opened at 1000, checked at 10000 (refused,
unchanged) and the same statement specialised at a concrete opening. -/
theorem c2_open_refuses_until_reset_witness :
    ((10000 : Int) - (Breaker.mk 5 1000 Phase.opened).openedAt < breakerResetMs →
      Breaker.isOpen 10000 ⟨5, 1000, Phase.opened⟩ = (true, ⟨5, 1000, Phase.opened⟩)) ∧
    (breakerResetMs ≤ (10000 : Int) - (Breaker.mk 5 1000 Phase.opened).openedAt →
      Breaker.isOpen 10000 ⟨5, 1000, Phase.opened⟩
          = (false, ⟨5, 1000, Phase.halfOpen⟩) ∧
      (Breaker.recordSuccess ⟨5, 1000, Phase.halfOpen⟩).phase = Phase.closed) :=
  c2_open_refuses_until_reset ⟨5, 1000, Phase.opened⟩ 10000 rfl





/-- C10: reading breaker status for health is not read-only: on an open
breaker aged at least 30 s, `getCircuitBreakerStatus` (and with it
`isReady` and `getHealthStatus`) flips the phase to half-open, so a
probe changes the phase seen by later invocations. -/
theorem c10_health_probe_mutates_breaker (b : Breaker) (now : Int)
    (rl : RateLimiterSt) (hopen : b.phase = Phase.opened)
    (hage : breakerResetMs ≤ now - b.openedAt) :
    (getCircuitBreakerStatus now b).2.phase = Phase.halfOpen ∧
    (getCircuitBreakerStatus now b).2.phase ≠ b.phase ∧
    (isReady now b).2.phase = Phase.halfOpen ∧
    (getHealthStatus now b rl).2.1.phase = Phase.halfOpen := by
  have hiso : Breaker.isOpen now b = (false, { b with phase := Phase.halfOpen }) := by
    rcases b with ⟨cf, oa, ph⟩
    simp only at hopen
    subst hopen
    simp [Breaker.isOpen, hage]
  refine ⟨?_, ?_, ?_, ?_⟩ <;>
    simp [getCircuitBreakerStatus, isReady, getHealthStatus, hiso, hopen]

/-- Witness for C10: a breaker opened at 0 probed at 30000 turns
half-open under status read, readiness and health queries. -/
theorem c10_health_probe_mutates_breaker_witness :
    (getCircuitBreakerStatus 30000 ⟨5, 0, Phase.opened⟩).2.phase = Phase.halfOpen ∧
    (getCircuitBreakerStatus 30000 ⟨5, 0, Phase.opened⟩).2.phase
        ≠ (Breaker.mk 5 0 Phase.opened).phase ∧
    (isReady 30000 ⟨5, 0, Phase.opened⟩).2.phase = Phase.halfOpen ∧
    (getHealthStatus 30000 ⟨5, 0, Phase.opened⟩ ⟨[], 30⟩).2.1.phase
        = Phase.halfOpen :=
  c10_health_probe_mutates_breaker ⟨5, 0, Phase.opened⟩ 30000 ⟨[], 30⟩ rfl
    (by decide)

/-- C5: the global admission check first evicts instants at least 60 s
old, then allows exactly when the remaining count is strictly below the
budget; on refusal the wait is `max 0 (60000 - (now - oldest))`; and
with budget 30, right after the 30th record inside the trailing minute
the next check refuses with a positive wait of at most 60000 ms. -/
theorem c5_global_admission (now : Int) (st : RateLimiterSt) :
    ((rlAdmission now st).1.1 = true ↔
        (rlCleanup now st.requests).length < st.limitPerMinute) ∧
    (∀ oldest : Int, (rlAdmission now st).1.1 = false →
        (rlCleanup now st.requests).head? = some oldest →
        (rlAdmission now st).1.2 = max 0 (60000 - (now - oldest))) ∧
    (st.limitPerMinute = 30 → st.requests.length = 30 →
        (∀ t ∈ st.requests, now - 60000 < t ∧ t ≤ now) →
        (rlAdmission now st).1.1 = false ∧ 0 < (rlAdmission now st).1.2 ∧
          (rlAdmission now st).1.2 ≤ 60000) := by
  refine ⟨?_, ?_, ?_⟩
  · by_cases h : (rlCleanup now st.requests).length < st.limitPerMinute
    · simp [rlAdmission, canMakeRequest, h]
    · simp [rlAdmission, canMakeRequest, h]
  · intro oldest href hhead
    by_cases h : (rlCleanup now st.requests).length < st.limitPerMinute
    · simp [rlAdmission, canMakeRequest, h] at href
    · have hfind : List.find? (fun t => decide (now - 60000 < t)) st.requests
          = some oldest := by
        simpa [rlCleanup, List.filter_head?] using hhead
      have h' : ¬ (List.filter (fun t => decide (now - 60000 < t)) st.requests).length
          < st.limitPerMinute := by
        simpa [rlCleanup] using h
      simp [rlAdmission, canMakeRequest, getWaitTime, rlCleanup, h', hfind]
  · intro hlim hlen hwin
    have hclean : rlCleanup now st.requests = st.requests := by
      apply List.filter_eq_self.mpr
      intro t ht
      exact decide_eq_true (hwin t ht).1
    have hfull : ¬ (rlCleanup now st.requests).length < st.limitPerMinute := by
      rw [hclean, hlen, hlim]
      omega
    obtain ⟨oldest, hhead⟩ : ∃ o, (rlCleanup now st.requests).head? = some o := by
      rw [hclean]
      cases hr : st.requests with
      | nil => rw [hr] at hlen; simp at hlen
      | cons a l => exact ⟨a, rfl⟩
    have hmem : oldest ∈ st.requests := by
      rw [hclean] at hhead
      exact List.mem_of_mem_head? hhead
    have hb := (hwin oldest hmem)
    have hfind : List.find? (fun t => decide (now - 60000 < t)) st.requests
        = some oldest := by
      simpa [rlCleanup, List.filter_head?] using hhead
    have hfull' : ¬ (List.filter (fun t => decide (now - 60000 < t)) st.requests).length
        < st.limitPerMinute := by
      simpa [rlCleanup] using hfull
    have hval : (rlAdmission now st).1.2 = max 0 (60000 - (now - oldest)) := by
      simp [rlAdmission, canMakeRequest, getWaitTime, rlCleanup, hfull', hfind]
    refine ⟨?_, ?_, ?_⟩
    · simp [rlAdmission, canMakeRequest, hfull]
    · rw [hval]
      have : (0 : Int) < 60000 - (now - oldest) := by omega
      omega
    · rw [hval]
      have : 60000 - (now - oldest) ≤ 60000 := by omega
      omega

/-- Witness for C5 at 30 instants of value 90000 observed at 100000
with budget 30: refused, wait is positive and at most a minute. -/
theorem c5_global_admission_witness :
    (rlAdmission 100000 ⟨List.replicate 30 90000, 30⟩).1.1 = false ∧
    0 < (rlAdmission 100000 ⟨List.replicate 30 90000, 30⟩).1.2 ∧
    (rlAdmission 100000 ⟨List.replicate 30 90000, 30⟩).1.2 ≤ 60000 :=
  (c5_global_admission 100000 ⟨List.replicate 30 90000, 30⟩).2.2 rfl (by decide)
    (by decide)

lemma mem_le_of_getLast? (l : List Int) (hs : List.Pairwise (· ≤ ·) l)
    (last : Int) (hl : l.getLast? = some last) : ∀ t ∈ l, t ≤ last := by
  induction l with
  | nil => simp at hl
  | cons x xs ih =>
      cases xs with
      | nil =>
          simp only [List.getLast?_singleton, Option.some.injEq] at hl
          intro t ht
          simp only [List.mem_singleton] at ht
          omega
      | cons y ys =>
          rw [List.getLast?_cons_cons] at hl
          have ihs := hs.of_cons
          have hmem := List.mem_of_mem_getLast? hl
          intro t ht
          rcases List.mem_cons.mp ht with h | h
          · subst h
            exact List.rel_of_pairwise_cons hs hmem
          · exact ih ihs hl t h

lemma getLast?_filter_of_pos (p : Int → Bool) (l : List Int) (last : Int)
    (hl : l.getLast? = some last) (hp : p last = true) :
    (l.filter p).getLast? = some last := by
  induction l with
  | nil => simp at hl
  | cons x xs ih =>
      cases xs with
      | nil =>
          simp only [List.getLast?_singleton, Option.some.injEq] at hl
          subst hl
          simp [List.filter, hp]
      | cons y ys =>
          rw [List.getLast?_cons_cons] at hl
          have htail := ih hl
          have hne : (y :: ys).filter p ≠ [] := by
            intro hnil
            rw [hnil] at htail
            simp at htail
          by_cases hx : p x = true
          · rw [List.filter_cons_of_pos hx]
            cases hfp : (y :: ys).filter p with
            | nil => exact absurd hfp hne
            | cons z zs =>
                rw [hfp] at htail
                rw [List.getLast?_cons_cons]
                exact htail
          · rw [List.filter_cons_of_neg (by simpa using hx)]
            exact htail

/-- C6: classification — negative numeric ids and unparsable string ids
are group/channel, non-negative numeric ids are private — and the
admission decision: a group destination admits exactly when fewer than
20 recorded instants lie within the trailing minute; a private
destination (with chronologically recorded positive instants) admits
exactly when no instant is recorded or the last one is at least
1000 ms old. -/
theorem c6_per_chat_classification (now : Int) (cid : ChatId) (st : PerChatSt)
    (hsorted : List.Pairwise (· ≤ ·) (st.chatTimestamps (chatKey cid)))
    (hpos : ∀ t ∈ st.chatTimestamps (chatKey cid), 0 < t) :
    (∀ i : Int, i < 0 → isGroupChat (ChatId.num i) = true) ∧
    (∀ i : Int, 0 ≤ i → isGroupChat (ChatId.num i) = false) ∧
    (∀ s : String, parseIntJS s = none → isGroupChat (ChatId.str s) = true) ∧
    (isGroupChat cid = true →
      ((canSendToChat now cid st).1 = true ↔
        ((st.chatTimestamps (chatKey cid)).filter
            (fun t => now - 60000 < t)).length < groupPerMinute)) ∧
    (isGroupChat cid = false →
      ((canSendToChat now cid st).1 = true ↔
        (st.chatTimestamps (chatKey cid) = [] ∨
          ∀ last, (st.chatTimestamps (chatKey cid)).getLast? = some last →
            privateIntervalMs ≤ now - last))) := by
  refine ⟨?_, ?_, ?_, ?_, ?_⟩
  · intro i hi
    simp [isGroupChat, hi]
  · intro i hi
    simp [isGroupChat, not_lt.mpr hi]
  · intro s hs
    simp [isGroupChat, hs]
  · intro hgrp
    by_cases hcln : now - st.lastCleanup < 60000
    · simp [canSendToChat, maybeCleanup, hcln, hgrp]
    · simp [canSendToChat, maybeCleanup, hcln, hgrp, List.filter_filter]
  · intro hgrp
    set l := st.chatTimestamps (chatKey cid) with hldef
    by_cases hcln : now - st.lastCleanup < 60000
    · -- no sweep: the stored list is inspected directly
      cases hlast : l.getLast? with
      | none =>
          have : l = [] := by simpa using hlast
          simp [canSendToChat, maybeCleanup, hcln, hgrp, ← hldef, hlast, this]
      | some last =>
          have hlm := List.mem_of_mem_getLast? hlast
          have hlpos : last ≠ 0 := by
            have := hpos last hlm
            omega
          have hnonnil : l ≠ [] := by
            intro h
            rw [h] at hlast
            simp at hlast
          constructor
          · intro hcan
            simp [canSendToChat, maybeCleanup, hcln, hgrp, ← hldef, hlast,
              hlpos] at hcan
            right
            intro last' hlast'
            cases hlast'
            simpa [privateIntervalMs] using hcan
          · intro hor
            rcases hor with h | h
            · exact absurd h hnonnil
            · have := h last rfl
              simp [canSendToChat, maybeCleanup, hcln, hgrp, ← hldef, hlast,
                hlpos, privateIntervalMs] at this ⊢
              omega
    · -- sweep ran: the inspected list is the window-filtered one
      cases hlast : l.getLast? with
      | none =>
          have : l = [] := by simpa using hlast
          simp [canSendToChat, maybeCleanup, hcln, hgrp, ← hldef, this]
      | some last =>
          have hlm := List.mem_of_mem_getLast? hlast
          have hnonnil : l ≠ [] := by
            intro h
            rw [h] at hlast
            simp at hlast
          by_cases hrec : now - 60000 < last
          · -- the last instant survives the sweep and stays last
            have hfl : (l.filter (fun t => now - 60000 < t)).getLast? = some last :=
              getLast?_filter_of_pos _ l last hlast (by simpa using hrec)
            have hlpos : last ≠ 0 := by
              have := hpos last hlm
              omega
            constructor
            · intro hcan
              simp [canSendToChat, maybeCleanup, hcln, hgrp, ← hldef, hfl,
                hlpos] at hcan
              right
              intro last' hlast'
              cases hlast'
              simpa [privateIntervalMs] using hcan
            · intro hor
              rcases hor with h | h
              · exact absurd h hnonnil
              · have := h last rfl
                simp [canSendToChat, maybeCleanup, hcln, hgrp, ← hldef, hfl,
                  hlpos, privateIntervalMs] at this ⊢
                omega
          · -- the whole history is outside the window: sweep empties it
            have hemp : l.filter (fun t => now - 60000 < t) = [] := by
              apply List.filter_eq_nil_iff.mpr
              intro t ht
              have hle := mem_le_of_getLast? l hsorted last hlast t ht
              simp only [decide_eq_true_eq]
              omega
            have hold : privateIntervalMs ≤ now - last := by
              simp [privateIntervalMs]
              omega
            constructor
            · intro _
              right
              intro last' hlast'
              cases hlast'
              exact hold
            · intro _
              simp [canSendToChat, maybeCleanup, hcln, hgrp, ← hldef, hemp]

/-- Witness for C6: a private chat 42 with one instant at 100 checked at
2000 (allowed, since 1900 ms elapsed), plus the classification facts. -/
theorem c6_per_chat_classification_witness :
    (∀ i : Int, i < 0 → isGroupChat (ChatId.num i) = true) ∧
    (∀ i : Int, 0 ≤ i → isGroupChat (ChatId.num i) = false) ∧
    (∀ s : String, parseIntJS s = none → isGroupChat (ChatId.str s) = true) ∧
    (isGroupChat (ChatId.num 42) = true →
      ((canSendToChat 2000 (ChatId.num 42)
          ⟨fun id => if id = "42" then [100] else [], 0⟩).1 = true ↔
        (((fun id => if id = "42" then [100] else ([] : List Int)) "42").filter
            (fun t => (2000 : Int) - 60000 < t)).length < groupPerMinute)) ∧
    (isGroupChat (ChatId.num 42) = false →
      ((canSendToChat 2000 (ChatId.num 42)
          ⟨fun id => if id = "42" then [100] else [], 0⟩).1 = true ↔
        ((fun id => if id = "42" then [100] else ([] : List Int)) "42" = [] ∨
          ∀ last, ((fun id => if id = "42" then [100] else ([] : List Int))
              "42").getLast? = some last →
            privateIntervalMs ≤ 2000 - last))) :=
  c6_per_chat_classification 2000 (ChatId.num 42)
    ⟨fun id => if id = "42" then [100] else [], 0⟩ (by decide) (by decide)

lemma colon_sep_inj (a : List Char) : ∀ b r : List Char, (':' ∉ a) → (':' ∉ b) →
    (a ++ [':']) <+: (b ++ ':' :: r) → a = b := by
  induction a with
  | nil =>
      intro b r _ hb h
      cases b with
      | nil => rfl
      | cons y bs =>
          exfalso
          have := (List.cons_prefix_cons.mp h).1
          subst this
          exact hb (List.mem_cons_self _ _)
  | cons x as ih =>
      intro b r ha hb h
      cases b with
      | nil =>
          exfalso
          have := (List.cons_prefix_cons.mp h).1
          subst this
          exact ha (List.mem_cons_self _ _)
      | cons y bs =>
          obtain ⟨hxy, htl⟩ := List.cons_prefix_cons.mp h
          subst hxy
          have : as = bs :=
            ih bs r (fun hm => ha (List.mem_cons_of_mem _ hm))
              (fun hm => hb (List.mem_cons_of_mem _ hm)) htl
          rw [this]

lemma clearCacheForMethod_preserves (m mOther : String) (p : Params)
    (c : CacheMap) (hne : mOther ≠ m) (hm : ':' ∉ m.data)
    (hm' : ':' ∉ mOther.data) :
    clearCacheForMethod mOther c (generateKey m p) = c (generateKey m p) := by
  unfold clearCacheForMethod
  rw [if_neg]
  intro hpre
  have hp := List.isPrefixOf_iff_prefix.mp hpre
  have hdata : (mOther ++ ":").data = mOther.data ++ [':'] := rfl
  have hkey : (generateKey m p).data
      = (m.data ++ [':']) ++ (stringifyJVal (JVal.obj p)).data := rfl
  have hkey2 : (generateKey m p).data
      = m.data ++ ':' :: (stringifyJVal (JVal.obj p)).data := by
    rw [hkey, List.append_assoc]
    rfl
  rw [hdata, hkey2] at hp
  exact hne (String.ext (colon_sep_inj mOther.data m.data
    (stringifyJVal (JVal.obj p)).data hm' hm hp))

lemma setCache_preserves (t : Int) (mOther : String) (pOther : Params)
    (v : JVal) (ttl : Option Int) (c : CacheMap) (key : String)
    (hne : generateKey mOther pOther ≠ key) :
    setCache t mOther pOther v ttl c key = c key := by
  simp only [setCache]
  cases ttl <|> CACHE_TTL mOther with
  | none => rfl
  | some ttlv =>
      show (if ttlv = 0 then c
        else fun k => if k = generateKey mOther pOther
          then some ⟨v, t + ttlv⟩ else c k) key = c key
      by_cases h0 : ttlv = 0
      · rw [if_pos h0]
      · rw [if_neg h0]
        show (if key = generateKey mOther pOther
            then some ⟨v, t + ttlv⟩ else c key) = c key
        rw [if_neg (fun h => hne h.symm)]

lemma getCached_preserves (u : Int) (mOther : String) (pOther : Params)
    (c : CacheMap) (key : String) (e : CEntry) (hc : c key = some e)
    (hu : u ≤ e.expiresAt) :
    (getCached u mOther pOther c).2 key = some e := by
  simp only [getCached]
  cases h : c (generateKey mOther pOther) with
  | none => simpa using hc
  | some e' =>
      show ((if e'.expiresAt < u
          then ((none : Option JVal),
            fun k => if k = generateKey mOther pOther then none else c k)
          else (some e'.data, c)).2) key = some e
      by_cases hexp : e'.expiresAt < u
      · rw [if_pos hexp]
        show (if key = generateKey mOther pOther then none else c key) = some e
        by_cases hk : key = generateKey mOther pOther
        · rw [hk] at hc
          rw [hc] at h
          cases h
          omega
        · rw [if_neg hk]
          exact hc
      · rw [if_neg hexp]
        exact hc


lemma runOps_preserves (l : List CacheOp) (c : CacheMap) (m : String)
    (p : Params) (e : CEntry) (hm : ':' ∉ m.data)
    (hc : c (generateKey m p) = some e)
    (hops : ∀ op ∈ l, okOp (generateKey m p) m e.expiresAt op) :
    runOps l c (generateKey m p) = some e := by
  induction l generalizing c with
  | nil => simpa [runOps] using hc
  | cons op rest ih =>
      have hstep : runOps (op :: rest) c = runOps rest (applyOp c op) := rfl
      rw [hstep]
      refine ih (applyOp c op) ?_ (fun o ho => hops o (List.mem_cons_of_mem _ ho))
      have hop := hops op (List.mem_cons_self _ _)
      cases op with
      | store mo po v ttl t =>
          rw [applyOp, setCache_preserves t mo po v ttl c _ hop]
          exact hc
      | look mo po u =>
          exact getCached_preserves u mo po c _ e hc hop
      | evict mo =>
          rw [applyOp, clearCacheForMethod_preserves m mo p c hop.1 hm hop.2]
          exact hc
      | clearAll => exact absurd hop (by simp [okOp])

/-- C3 (amended): a `store(m,p,v,ttl)` at `t` followed by a
`lookup(m,p)` at `t'` with `t' - t < ttl`, with intervening operations
limited to other-key stores, lookups up to the expiry instant and
evictions of other (colon-free) methods and no `clear()`, returns `v`.
Expiry is strict: a lookup at exactly `expiresAt` still hits and leaves
the entry in place; only a lookup with `now > expiresAt` evicts the
entry and misses. -/
theorem c3_cache_ttl_roundtrip (m : String) (p : Params) (v : JVal)
    (ttl t tq : Int) (l : List CacheOp) (c : CacheMap)
    (hm : ':' ∉ m.data) (httl : 0 < ttl) (hfresh : tq - t < ttl)
    (hops : ∀ op ∈ l, okOp (generateKey m p) m (t + ttl) op) :
    (getCached tq m p (runOps l (setCache t m p v (some ttl) c))).1 = some v ∧
    (∀ (c2 : CacheMap) (e : CEntry), c2 (generateKey m p) = some e →
      (getCached e.expiresAt m p c2).1 = some e.data ∧
      (getCached e.expiresAt m p c2).2 = c2) ∧
    (∀ (c2 : CacheMap) (e : CEntry) (u : Int), c2 (generateKey m p) = some e →
      e.expiresAt < u →
      (getCached u m p c2).1 = none ∧
      (getCached u m p c2).2 (generateKey m p) = none) := by
  refine ⟨?_, ?_, ?_⟩
  · have hset : setCache t m p v (some ttl) c (generateKey m p)
        = some ⟨v, t + ttl⟩ := by
      simp only [setCache]
      show (if ttl = 0 then c
        else fun k => if k = generateKey m p
          then some ⟨v, t + ttl⟩ else c k) (generateKey m p) = some ⟨v, t + ttl⟩
      rw [if_neg (by omega)]
      show (if generateKey m p = generateKey m p
          then some ⟨v, t + ttl⟩ else c (generateKey m p)) = some ⟨v, t + ttl⟩
      rw [if_pos rfl]
    have hrun := runOps_preserves l (setCache t m p v (some ttl) c) m p
      ⟨v, t + ttl⟩ hm hset hops
    simp only [getCached]
    rw [hrun]
    show ((if (CEntry.mk v (t + ttl)).expiresAt < tq
        then ((none : Option JVal), fun k => if k = generateKey m p then none
          else runOps l (setCache t m p v (some ttl) c) k)
        else (some (CEntry.mk v (t + ttl)).data,
          runOps l (setCache t m p v (some ttl) c))).1) = some v
    rw [if_neg (by show ¬ (t + ttl < tq); omega)]
  · intro c2 e he
    simp only [getCached]
    rw [he]
    show ((if e.expiresAt < e.expiresAt
        then ((none : Option JVal), fun k => if k = generateKey m p then none else c2 k)
        else (some e.data, c2)).1) = some e.data ∧
      ((if e.expiresAt < e.expiresAt
        then ((none : Option JVal), fun k => if k = generateKey m p then none else c2 k)
        else (some e.data, c2)).2) = c2
    rw [if_neg (lt_irrefl _)]
    exact ⟨rfl, rfl⟩
  · intro c2 e u he hu
    simp only [getCached]
    rw [he]
    show ((if e.expiresAt < u
        then ((none : Option JVal), fun k => if k = generateKey m p then none else c2 k)
        else (some e.data, c2)).1) = none ∧
      ((if e.expiresAt < u
        then ((none : Option JVal), fun k => if k = generateKey m p then none else c2 k)
        else (some e.data, c2)).2) (generateKey m p) = none
    rw [if_pos hu]
    refine ⟨rfl, ?_⟩
    show (if generateKey m p = generateKey m p then none else c2 (generateKey m p))
        = none
    rw [if_pos rfl]

/-- Witness for C3: a value stored for `getChat` at 0 with TTL 100
survives an eviction of `getMe` and is returned by a lookup at 99. -/
theorem c3_cache_ttl_roundtrip_witness :
    (getCached 99 "getChat" [] (runOps [CacheOp.evict "getMe"]
        (setCache 0 "getChat" [] (JVal.num 7) (some 100) emptyCache))).1
      = some (JVal.num 7) :=
  (c3_cache_ttl_roundtrip "getChat" [] (JVal.num 7) 100 0 99
      [CacheOp.evict "getMe"] emptyCache (by decide) (by decide) (by decide)
      (by
        intro op hop
        simp only [List.mem_singleton] at hop
        subst hop
        exact ⟨by decide, by decide⟩)).1

/-- C3 counterexample: the claim says a lookup observing
`now ≥ expiresAt` evicts and misses, but at `now = expiresAt` the code
(`Date.now() > entry.expiresAt`) still hits and keeps the entry. -/
theorem c3_boundary_lookup_hits :
    (getCached 100 "getChat" []
        (setCache 0 "getChat" [] (JVal.num 7) (some 100) emptyCache)).1
      = some (JVal.num 7) ∧
    (getCached 100 "getChat" []
        (setCache 0 "getChat" [] (JVal.num 7) (some 100) emptyCache)).2
        (generateKey "getChat" []) = some ⟨JVal.num 7, 100⟩ :=
  ⟨rfl, rfl⟩



/-- C4 counterexample: the two orderings of the same bindings are a
permutation of each other, yet `generateKey` (plain `JSON.stringify`,
no key sorting) produces different cache keys. -/
theorem c4_reordered_params_distinct_keys :
    pEx.Perm qEx ∧ generateKey "getChat" pEx ≠ generateKey "getChat" qEx :=
  ⟨List.Perm.swap ("b", JVal.num 2) ("a", JVal.num 1) [], by decide⟩

/-- C4 (amended): the cache key serialises fields in insertion order,
so for every method there are logically equal parameter objects (equal
up to permutation) whose keys differ — equivalent parameter sets do
not, in general, collide. -/
theorem c4_key_depends_on_field_order (m : String) :
    ∃ p q : Params, p.Perm q ∧ generateKey m p ≠ generateKey m q := by
  refine ⟨pEx, qEx, List.Perm.swap ("b", JVal.num 2) ("a", JVal.num 1) [], ?_⟩
  intro h
  have hdata : (m ++ ":").data ++ (stringifyJVal (JVal.obj pEx)).data
      = (m ++ ":").data ++ (stringifyJVal (JVal.obj qEx)).data :=
    congrArg String.data h
  have h4 : stringifyJVal (JVal.obj pEx) = stringifyJVal (JVal.obj qEx) :=
    String.ext (List.append_cancel_left hdata)
  exact absurd h4 (by decide)

/-- C7: on a fresh cache entry for a cacheable method, `invoke` returns
`{ok:true, result:<cached>}` with zero transport attempts and leaves the
whole world — cache, breaker, global and per-chat limiter — unchanged. -/
theorem c7_cache_hit_skips_everything (method : String) (params : Params)
    (timeoutMs : Int) (maxRetries : Nat) (skipRateLimit : Bool)
    (fileCheck : FileCheck) (outcome : Nat → Outcome) (times : Nat → Int)
    (now0 : Int) (w : ApiWorld) (e : CEntry)
    (hcache : isCacheable method = true)
    (hentry : w.cache (generateKey method params) = some e)
    (hfresh : ¬ e.expiresAt < now0) :
    callTelegramAPI method params timeoutMs maxRetries skipRateLimit
        fileCheck outcome times now0 w
      = ({ ok := true, result := some e.data }, w, 0) := by
  have hprobe : (if isCacheable method
      then getCached now0 method params w.cache
      else ((none : Option JVal), w.cache)) = (some e.data, w.cache) := by
    rw [if_pos hcache]
    simp only [getCached]
    rw [hentry]
    show (if e.expiresAt < now0
        then ((none : Option JVal), fun k => if k = generateKey method params
          then none else w.cache k)
        else (some e.data, w.cache)) = (some e.data, w.cache)
    rw [if_neg hfresh]
  simp only [callTelegramAPI, hprobe]

/-- Witness for C7: a fresh `getMe` entry is served as-is with no
attempt and an identical world. -/
theorem c7_cache_hit_skips_everything_witness :
    callTelegramAPI "getMe" [] 30000 3 false FileCheck.noFiles
        (fun _ => Outcome.reply { ok := true }) (fun _ => 0) 50
        { cache := fun k => if k = generateKey "getMe" []
            then some ⟨JVal.num 9, 100⟩ else none,
          breaker := Breaker.init, global := ⟨[], 30⟩,
          perChat := ⟨fun _ => [], 0⟩ }
      = ({ ok := true, result := some (JVal.num 9) },
         { cache := fun k => if k = generateKey "getMe" []
             then some ⟨JVal.num 9, 100⟩ else none,
           breaker := Breaker.init, global := ⟨[], 30⟩,
           perChat := ⟨fun _ => [], 0⟩ }, 0) :=
  c7_cache_hit_skips_everything "getMe" [] 30000 3 false FileCheck.noFiles
    (fun _ => Outcome.reply { ok := true }) (fun _ => 0) 50 _
    ⟨JVal.num 9, 100⟩ rfl (by simp) (by decide)

lemma apiLoop_attempts_le (method : String) (params : Params)
    (timeoutMs : Int) (outcome : Nat → Outcome) (times : Nat → Int) :
    ∀ (budget attempt : Nat) (w : ApiWorld),
      (apiLoop method params timeoutMs outcome times attempt budget w).2.2
        ≤ budget + 1 := by
  intro budget
  induction budget with
  | zero =>
      intro attempt w
      unfold apiLoop
      cases outcome attempt with
      | reply r =>
          by_cases hok : r.ok
          · simp [hok]
          · by_cases hret : isRetryableError r
            · simp [hok, hret]
            · simp [hok, hret]
      | transportErr isT msg => simp
  | succ b ih =>
      intro attempt w
      unfold apiLoop
      cases outcome attempt with
      | reply r =>
          by_cases hok : r.ok
          · simp [hok]
          · by_cases hret : isRetryableError r
            · simp only [hok, hret, Bool.false_eq_true, if_false, if_true]
              have := ih (attempt + 1)
                { w with global := recordRequest (times attempt) w.global }
              omega
            · simp [hok, hret]
      | transportErr isT msg =>
          simp only
          have := ih (attempt + 1)
            { w with global := recordRequest (times attempt) w.global }
          omega

lemma invoke_attempts_le (method : String) (params : Params) (timeoutMs : Int)
    (maxRetries : Nat) (skipRateLimit : Bool) (fileCheck : FileCheck)
    (outcome : Nat → Outcome) (times : Nat → Int) (now0 : Int)
    (w : ApiWorld) :
    (callTelegramAPI method params timeoutMs maxRetries skipRateLimit
        fileCheck outcome times now0 w).2.2 ≤ maxRetries + 1 := by
  simp only [callTelegramAPI]
  repeat' split
  all_goals
    first
      | exact Nat.zero_le _
      | exact apiLoop_attempts_le method params timeoutMs outcome times
          maxRetries 0 _

lemma isRetryableError_4xx (r : Resp) (c : Int) (hok : r.ok = false)
    (hcode : r.errorCode = some c) (h4 : 400 ≤ c) (h5 : c < 500)
    (h429 : c ≠ 429) : isRetryableError r = false := by
  unfold isRetryableError
  rw [hok, hcode]
  simp only [Bool.false_eq_true, if_false]
  rw [if_neg (by simpa using h429)]
  rw [if_neg (by omega)]
  simp
  omega

/-- C8: `invoke` performs at most `1 + maxRetries` transport attempts;
an attempt whose parsed reply carries a 4xx code other than 429 ends the
loop at once — the envelope is that reply and exactly one attempt was
used; a retryable reply (429, 5xx) or a transport error with budget
remaining performs the recorded retry step. -/
theorem c8_retry_policy (method : String) (params : Params) (timeoutMs : Int)
    (maxRetries : Nat) (skipRateLimit : Bool) (fileCheck : FileCheck)
    (outcome : Nat → Outcome) (times : Nat → Int) (now0 : Int)
    (w : ApiWorld) (r : Resp) (c : Int) :
    ((callTelegramAPI method params timeoutMs maxRetries skipRateLimit
        fileCheck outcome times now0 w).2.2 ≤ maxRetries + 1) ∧
    (∀ (attempt budget : Nat) (v : ApiWorld),
      outcome attempt = Outcome.reply r → r.ok = false →
      r.errorCode = some c → 400 ≤ c → c < 500 → c ≠ 429 →
      (apiLoop method params timeoutMs outcome times attempt budget v).1 = r ∧
      (apiLoop method params timeoutMs outcome times attempt budget v).2.2 = 1) ∧
    (∀ (attempt b : Nat) (v : ApiWorld),
      outcome attempt = Outcome.reply r → r.ok = false →
      isRetryableError r = true →
      apiLoop method params timeoutMs outcome times attempt (b + 1) v
        = ((apiLoop method params timeoutMs outcome times (attempt + 1) b
              { v with global := recordRequest (times attempt) v.global }).1,
           (apiLoop method params timeoutMs outcome times (attempt + 1) b
              { v with global := recordRequest (times attempt) v.global }).2.1,
           (apiLoop method params timeoutMs outcome times (attempt + 1) b
              { v with global := recordRequest (times attempt) v.global }).2.2
             + 1)) ∧
    (∀ (attempt b : Nat) (v : ApiWorld) (isT : Bool) (msg : String),
      outcome attempt = Outcome.transportErr isT msg →
      apiLoop method params timeoutMs outcome times attempt (b + 1) v
        = ((apiLoop method params timeoutMs outcome times (attempt + 1) b
              { v with global := recordRequest (times attempt) v.global }).1,
           (apiLoop method params timeoutMs outcome times (attempt + 1) b
              { v with global := recordRequest (times attempt) v.global }).2.1,
           (apiLoop method params timeoutMs outcome times (attempt + 1) b
              { v with global := recordRequest (times attempt) v.global }).2.2
             + 1)) := by
  refine ⟨invoke_attempts_le method params timeoutMs maxRetries skipRateLimit
    fileCheck outcome times now0 w, ?_, ?_, ?_⟩
  · intro attempt budget v hout hok hcode h4 h5 h429
    have hret := isRetryableError_4xx r c hok hcode h4 h5 h429
    unfold apiLoop
    rw [hout]
    simp [hok, hret]
  · intro attempt b v hout hok hret
    conv_lhs => unfold apiLoop
    rw [hout]
    simp [hok, hret]
  · intro attempt b v isT msg hout
    conv_lhs => unfold apiLoop
    rw [hout]

/-- Witness for C8 with a constant 404 transport: the envelope is the
404 reply after exactly one attempt, and the attempt bound holds. -/
theorem c8_retry_policy_witness :
    ((callTelegramAPI "getUpdates" [] 30000 3 false FileCheck.noFiles
        (fun _ => Outcome.reply { ok := false, errorCode := some 404 })
        (fun i => 1000 * ((i : Int) + 1)) 500
        { cache := emptyCache, breaker := Breaker.init,
          global := ⟨[], 30⟩, perChat := ⟨fun _ => [], 0⟩ }).2.2 ≤ 3 + 1) ∧
    ((apiLoop "getUpdates" [] 30000
        (fun _ => Outcome.reply { ok := false, errorCode := some 404 })
        (fun i => 1000 * ((i : Int) + 1)) 0 3
        { cache := emptyCache, breaker := Breaker.init,
          global := ⟨[], 30⟩, perChat := ⟨fun _ => [], 0⟩ }).1
      = { ok := false, errorCode := some 404 } ∧
    (apiLoop "getUpdates" [] 30000
        (fun _ => Outcome.reply { ok := false, errorCode := some 404 })
        (fun i => 1000 * ((i : Int) + 1)) 0 3
        { cache := emptyCache, breaker := Breaker.init,
          global := ⟨[], 30⟩, perChat := ⟨fun _ => [], 0⟩ }).2.2 = 1) :=
  ⟨(c8_retry_policy "getUpdates" [] 30000 3 false FileCheck.noFiles
      (fun _ => Outcome.reply { ok := false, errorCode := some 404 })
      (fun i => 1000 * ((i : Int) + 1)) 500
      { cache := emptyCache, breaker := Breaker.init,
        global := ⟨[], 30⟩, perChat := ⟨fun _ => [], 0⟩ }
      { ok := false, errorCode := some 404 } 404).1,
   (c8_retry_policy "getUpdates" [] 30000 3 false FileCheck.noFiles
      (fun _ => Outcome.reply { ok := false, errorCode := some 404 })
      (fun i => 1000 * ((i : Int) + 1)) 500
      { cache := emptyCache, breaker := Breaker.init,
        global := ⟨[], 30⟩, perChat := ⟨fun _ => [], 0⟩ }
      { ok := false, errorCode := some 404 } 404).2.1 0 3 _ rfl rfl rfl
     (by decide) (by decide) (by decide)⟩

/-- C9 counterexample: an invocation that retries once (a 500 then a
success) is a successful invocation with two global-limiter records,
not exactly one. -/
theorem c9_successful_invocation_two_records :
    ((callTelegramAPI "getUpdates" [] 30000 1 false FileCheck.noFiles
        (fun i => if i = 0
          then Outcome.reply { ok := false, errorCode := some 500 }
          else Outcome.reply { ok := true, result := some (JVal.num 1) })
        (fun i => 1000 * ((i : Int) + 1)) 500
        { cache := emptyCache, breaker := Breaker.init,
          global := ⟨[], 30⟩, perChat := ⟨fun _ => [], 0⟩ }).1).ok = true ∧
    ((callTelegramAPI "getUpdates" [] 30000 1 false FileCheck.noFiles
        (fun i => if i = 0
          then Outcome.reply { ok := false, errorCode := some 500 }
          else Outcome.reply { ok := true, result := some (JVal.num 1) })
        (fun i => 1000 * ((i : Int) + 1)) 500
        { cache := emptyCache, breaker := Breaker.init,
          global := ⟨[], 30⟩, perChat := ⟨fun _ => [], 0⟩ }).2.1).global.requests
      = [1000, 2000] :=
  ⟨rfl, rfl⟩

/-- C9 (amended): the global limiter records exactly once per transport
attempt — the retry loop appends one recorded instant (the clock of the
attempt, taken just before it) for each attempt it performs, so a
successful invocation with n attempts records n instants and retries
consume budget. -/
theorem c9_one_record_per_attempt (method : String) (params : Params)
    (timeoutMs : Int) (outcome : Nat → Outcome) (times : Nat → Int) :
    ∀ (budget attempt : Nat) (w : ApiWorld),
      ((apiLoop method params timeoutMs outcome times attempt budget
          w).2.1).global.requests.length
        = w.global.requests.length
          + (apiLoop method params timeoutMs outcome times attempt budget
              w).2.2 := by
  intro budget
  induction budget with
  | zero =>
      intro attempt w
      unfold apiLoop
      cases outcome attempt with
      | reply r =>
          by_cases hok : r.ok
          · simp only [hok, if_true]
            by_cases hmsg : method ∈ MESSAGE_SENDING_METHODS
            · cases hcid : chatIdOf params with
              | some cid =>
                  by_cases hcch : isCacheable method
                  · cases hres : r.result with
                    | some v =>
                        simp [hmsg, hcid, hcch, hres, recordRequest,
                          recordChatMessage]
                    | none =>
                        simp [hmsg, hcid, hcch, hres, recordRequest,
                          recordChatMessage]
                  · simp [hmsg, hcid, hcch, recordRequest, recordChatMessage]
              | none =>
                  by_cases hcch : isCacheable method
                  · cases hres : r.result with
                    | some v => simp [hmsg, hcid, hcch, hres, recordRequest]
                    | none => simp [hmsg, hcid, hcch, hres, recordRequest]
                  · simp [hmsg, hcid, hcch, recordRequest]
            · by_cases hcch : isCacheable method
              · cases hres : r.result with
                | some v => simp [hmsg, hcch, hres, recordRequest]
                | none => simp [hmsg, hcch, hres, recordRequest]
              · simp [hmsg, hcch, recordRequest]
          · by_cases hret : isRetryableError r
            · simp [hok, hret, recordRequest]
            · simp [hok, hret, recordRequest]
      | transportErr isT msg => simp [recordRequest]
  | succ b ih =>
      intro attempt w
      unfold apiLoop
      cases outcome attempt with
      | reply r =>
          by_cases hok : r.ok
          · simp only [hok, if_true]
            by_cases hmsg : method ∈ MESSAGE_SENDING_METHODS
            · cases hcid : chatIdOf params with
              | some cid =>
                  by_cases hcch : isCacheable method
                  · cases hres : r.result with
                    | some v =>
                        simp [hmsg, hcid, hcch, hres, recordRequest,
                          recordChatMessage]
                    | none =>
                        simp [hmsg, hcid, hcch, hres, recordRequest,
                          recordChatMessage]
                  · simp [hmsg, hcid, hcch, recordRequest, recordChatMessage]
              | none =>
                  by_cases hcch : isCacheable method
                  · cases hres : r.result with
                    | some v => simp [hmsg, hcid, hcch, hres, recordRequest]
                    | none => simp [hmsg, hcid, hcch, hres, recordRequest]
                  · simp [hmsg, hcid, hcch, recordRequest]
            · by_cases hcch : isCacheable method
              · cases hres : r.result with
                | some v => simp [hmsg, hcch, hres, recordRequest]
                | none => simp [hmsg, hcch, hres, recordRequest]
              · simp [hmsg, hcch, recordRequest]
          · by_cases hret : isRetryableError r
            · simp only [hok, hret, Bool.false_eq_true, if_false, if_true]
              have := ih (attempt + 1)
                { w with global := recordRequest (times attempt) w.global }
              simp only [recordRequest, List.length_append,
                List.length_singleton] at this ⊢
              omega
            · simp [hok, hret, recordRequest]
      | transportErr isT msg =>
          simp only
          have := ih (attempt + 1)
            { w with global := recordRequest (times attempt) w.global }
          simp only [recordRequest, List.length_append,
            List.length_singleton] at this ⊢
          omega

end TelegramMCP
